import Mathlib

/-!
Verification of the Retrieval & Context-Assembly Engine of the AI-search
repository, shallowly embedded from `src/chat_manager_v2.py` (the refined
"two-stage" pipeline) and `src/chat_manager.py` (the earlier pipeline that
carries the forced-inclusion step).

External collaborators (the Azure search backend, the LLM paraphrase call,
the blob store / SAS-URL generation, and the direct JSON fetch) are modelled
as function parameters; the engine's own logic is translated line by line.

Python string primitives (`in`, `split`, `replace`, `strip`, `upper`,
`lower`, `urllib.parse.unquote`) are re-implemented over `List Char`.
Case mapping is ASCII (Python's is Unicode-aware; the two agree on every
string occurring in this development), and `unquote` decodes each `%XX`
escape to a single code point (Python additionally UTF-8-decodes multi-byte
sequences; all inputs considered here are percent-free or ASCII).
-/

set_option autoImplicit false

namespace AISearch

/-! ### Python string primitives -/

/-- Python's `\s` / `str.split()` whitespace class (ASCII part). -/
def isPySpace (c : Char) : Bool :=
  c = ' ' || c = '\t' || c = '\n' || c = '\r' || c = '\x0b' || c = '\x0c'

/-- `needle` occurs as a contiguous run inside `hay`. -/
def listIsInfix (needle : List Char) : List Char → Bool
  | [] => needle.isEmpty
  | c :: t => needle.isPrefixOf (c :: t) || listIsInfix needle t

/-- Python `needle in hay` (substring containment). -/
def pyIn (needle hay : String) : Bool :=
  listIsInfix needle.toList hay.toList

/-- Python `str.upper()` (ASCII letters; identity on the Korean text used here). -/
def pyUpper (s : String) : String :=
  String.mk (s.toList.map Char.toUpper)

/-- Python `str.lower()` (ASCII letters; identity on the Korean text used here). -/
def pyLower (s : String) : String :=
  String.mk (s.toList.map Char.toLower)

/-- Python `str.strip()` with no argument. -/
def pyStrip (s : String) : String :=
  String.mk (((s.toList.dropWhile isPySpace).reverse.dropWhile isPySpace).reverse)

/-- `sep.join l` for `sep`/`l` strings (Python `str.join`). -/
def joinWith (sep : String) : List String → String
  | [] => ""
  | x :: t => t.foldl (fun a b => a ++ sep ++ b) x

/-- Worker for `pySplit`: the separator is `s1 :: srest` (non-empty).  `fuel`
makes the recursion structural; every step consumes at least one character, so
`fuel = length of the input` never runs out and the fuel-exhausted branch is
unreachable. -/
def splitOnAux (s1 : Char) (srest : List Char) : Nat → List Char → List Char →
    List (List Char)
  | _, acc, [] => [acc.reverse]
  | 0, acc, cs => [acc.reverse ++ cs]
  | fuel + 1, acc, c :: cs' =>
    if c = s1 && srest.isPrefixOf cs' then
      acc.reverse :: splitOnAux s1 srest fuel [] (cs'.drop srest.length)
    else
      splitOnAux s1 srest fuel (c :: acc) cs'

/-- Python `s.split(sep)` for a non-empty separator (the only case the source uses). -/
def pySplit (s sep : String) : List String :=
  match sep.toList with
  | [] => [s]
  | s1 :: srest => (splitOnAux s1 srest s.toList.length [] s.toList).map String.mk

/-- Worker for `pyReplace`: the pattern is `p1 :: prest` (non-empty); `fuel`
as in `splitOnAux`. -/
def pyReplaceAux (p1 : Char) (prest repl : List Char) : Nat → List Char → List Char
  | _, [] => []
  | 0, cs => cs
  | fuel + 1, c :: cs' =>
    if c = p1 && prest.isPrefixOf cs' then
      repl ++ pyReplaceAux p1 prest repl fuel (cs'.drop prest.length)
    else
      c :: pyReplaceAux p1 prest repl fuel cs'

/-- Python `s.replace(pat, repl)` for a non-empty pattern (the only case the source uses). -/
def pyReplace (s pat repl : String) : String :=
  match pat.toList with
  | [] => s
  | p1 :: prest => String.mk (pyReplaceAux p1 prest repl.toList s.toList.length s.toList)

/-- Python `s.startswith(pre)`. -/
def pyStartsWith (s pre : String) : Bool :=
  pre.toList.isPrefixOf s.toList

/-- Value of an ASCII hex digit. -/
def hexVal (c : Char) : Option Nat :=
  if '0' ≤ c ∧ c ≤ '9' then some (c.toNat - 48)
  else if 'a' ≤ c ∧ c ≤ 'f' then some (c.toNat - 87)
  else if 'A' ≤ c ∧ c ≤ 'F' then some (c.toNat - 55)
  else none

/-- Worker for `pyUnquote`. -/
def pyUnquoteAux : List Char → List Char
  | [] => []
  | '%' :: h1 :: h2 :: rest =>
    match hexVal h1, hexVal h2 with
    | some a, some b => Char.ofNat (16 * a + b) :: pyUnquoteAux rest
    | _, _ => '%' :: pyUnquoteAux (h1 :: h2 :: rest)
  | c :: rest => c :: pyUnquoteAux rest

/-- Python `urllib.parse.unquote` restricted to single-byte escapes. -/
def pyUnquote (s : String) : String :=
  String.mk (pyUnquoteAux s.toList)

/-- `os.path.splitext(s)[0]`: drop the extension after the last dot, unless every
character before that dot is itself a dot. -/
def splitextRoot (s : String) : String :=
  let r := s.toList.reverse
  match r.findIdx? (fun c => c = '.') with
  | none => s
  | some j =>
    let keep := r.drop (j + 1)
    if keep.any (fun c => c ≠ '.') then String.mk keep.reverse else s

/-- Digits of a decimal numeral to a `Nat` (Python `int` on a digit string). -/
def digitsToNat (cs : List Char) : Nat :=
  cs.foldl (fun n c => n * 10 + (c.toNat - 48)) 0

/-- Python truthiness of an optional string (`None` and `""` are falsy). -/
def optNonEmpty : Option String → Option String
  | none => none
  | some s => if s = "" then none else some s

/-! ### Data model

`SearchHit` is one raw backend result (`metadata_storage_name`,
`metadata_storage_path`, `content`, optional `title`, each defaulting to `""`
exactly as the source's `result.get(..., '')` does).  `SearchRequest` records
one call to `search_manager.search` (`top = none` means the caller did not
pass `top`). -/

structure SearchHit where
  metadata_storage_name : String
  metadata_storage_path : String
  content : String
  title : String
deriving DecidableEq, Repr

structure SearchRequest where
  query : Option String
  filter : Option String
  useSemanticRanker : Bool
  searchMode : String
  top : Option Nat
deriving DecidableEq, Repr

structure Citation where
  filepath : String
  url : String
  path : String
  title : String
  page : Nat
deriving DecidableEq, Repr

/-! ### Deduplication (chat_manager_v2.py lines 472-486)

`result_id = result.get('metadata_storage_name','') + str(result.get('content','')[:50])`;
first occurrence of each id is kept. -/

def resultId (h : SearchHit) : String :=
  h.metadata_storage_name ++ String.mk (h.content.toList.take 50)

def dedupAux (seen : List String) : List SearchHit → List SearchHit
  | [] => []
  | h :: t =>
    if seen.contains (resultId h) then dedupAux seen t
    else h :: dedupAux (resultId h :: seen) t

def dedupResults (hits : List SearchHit) : List SearchHit :=
  dedupAux [] hits

/-- The `seen_ids` set after folding a list of hits into `dedupAux`. -/
def seenAfter (seen : List String) : List SearchHit → List String
  | [] => seen
  | h :: t =>
    if seen.contains (resultId h) then seenAfter seen t
    else seenAfter (resultId h :: seen) t

/-! ### Query sanitization (chat_manager_v2.py lines 420-422)

`re.sub(r'\bAND\b',' ',q,flags=IGNORECASE)`, then
`re.sub(r'[&+\-|!(){}\[\]^"~*?:\\]',' ',q)`, then `' '.join(q.split())`.
`\w` (for `\b`) is modelled by its ASCII part. -/

def isWordChar (c : Char) : Bool :=
  c.isAlphanum || c = '_'

/-- Replace every word-bounded `AND` (case-insensitive) by a space.
`prev` is the character preceding the current scan position, if any. -/
def subAndWord (prev : Option Char) : List Char → List Char
  | c1 :: c2 :: c3 :: rest =>
    if (c1.toLower = 'a' && c2.toLower = 'n' && c3.toLower = 'd')
        && (match prev with | none => true | some p => !isWordChar p)
        && (match rest with | [] => true | r :: _ => !isWordChar r) then
      ' ' :: subAndWord (some c3) rest
    else
      c1 :: subAndWord (some c1) (c2 :: c3 :: rest)
  | c :: cs => c :: subAndWord (some c) cs
  | [] => []

/-- The character class `[&+\-|!(){}\[\]^"~*?:\\]` blanked by the second `re.sub`. -/
def querySpecials : List Char :=
  ['&', '+', '-', '|', '!', '(', ')', '\x7b', '\x7d', '[', ']', '^', '"', '~', '*', '?', ':', '\\']

/-- Python `' '.join(s.split())`: collapse whitespace runs, trim ends. -/
def collapseWs (s : String) : String :=
  joinWith " " (((s.toList.splitOnP isPySpace).map String.mk).filter (fun t => t ≠ ""))

def sanitizeQuery (user_message : String) : String :=
  let s1 := String.mk (subAndWord none user_message.toList)
  let s2 := String.mk (s1.toList.map (fun c => if querySpecials.contains c then ' ' else c))
  collapseWs s2

/-! ### Query Normalizer `_rewrite_query` (chat_manager_v2.py lines 164-215)

The LLM paraphrase call is the parameter `llm` (`none` models the call
raising).  When the LLM call succeeds, the Python function assigns
`rewritten` and then falls off the end, so it returns `None`; the result
type is therefore `Option String`. -/

/-- `(\d+)\s*페이지` matched at the head of `cs`. -/
def pageAlt1 (cs : List Char) : Bool :=
  let ds := cs.takeWhile Char.isDigit
  !ds.isEmpty && ("페이지".toList.isPrefixOf ((cs.drop ds.length).dropWhile isPySpace))

/-- `p\.?\s*\d+` (IGNORECASE) matched at the head of `cs`. -/
def pageAlt2 : List Char → Bool
  | c :: rest =>
    (c = 'p' || c = 'P') &&
      (let rest' := match rest with
        | '.' :: r => r
        | r => r
       match rest'.dropWhile isPySpace with
       | d :: _ => d.isDigit
       | [] => false)
  | [] => false

/-- `page\s*\d+` (IGNORECASE) matched at the head of `cs`. -/
def pageAlt3 : List Char → Bool
  | c1 :: c2 :: c3 :: c4 :: rest =>
    (c1.toLower = 'p' && c2.toLower = 'a' && c3.toLower = 'g' && c4.toLower = 'e') &&
      (match rest.dropWhile isPySpace with
       | d :: _ => d.isDigit
       | [] => false)
  | _ => false

/-- `re.search(r'(\d+)\s*페이지|p\.?\s*\d+|page\s*\d+', msg, re.IGNORECASE)` as a Bool. -/
def pageSpecificPattern (msg : String) : Bool :=
  msg.toList.tails.any (fun t => pageAlt1 t || pageAlt2 t || pageAlt3 t)

def structuralKeywords : List String :=
  ["LIST", "INDEX", "TABLE", "DIAGRAM", "목록", "리스트", "다이어그램", "도면"]

def structuralQuery (msg : String) : Bool :=
  structuralKeywords.any (fun kw => pyIn kw (pyUpper msg))

/-- Rule: `"전기부하리스트" in msg or "Load List" in msg`. -/
def loadListTrigger (msg : String) : Bool :=
  pyIn "전기부하리스트" msg || pyIn "Load List" msg

/-- Rule: P&ID mention together with a list-ish word. -/
def pidListTrigger (msg : String) : Bool :=
  (["P&ID", "PID", "피앤아이디"].any (fun x => pyIn x (pyUpper msg))) &&
    (["리스트", "목록", "LIST", "INDEX", "비교"].any (fun x => pyIn x msg))

def rewriteQueryV2 (llm : String → Option String) (user_message : String) : Option String :=
  if pageSpecificPattern user_message then some user_message
  else if structuralQuery user_message then some user_message
  else if loadListTrigger user_message then
    some (user_message ++ " Electrical Load List Motor Heater kW HP Tag No Rating")
  else if pidListTrigger user_message then
    some (user_message ++
      " PIPING AND INSTRUMENT DIAGRAM LIST DRAWING INDEX TABLE PIPING AND INSTRUMENT DIAGRAM FOR LIST")
  else
    match llm user_message with
    | some _ => none
    | none => some user_message

/-! ### Two-stage search (chat_manager_v2.py lines 399-487)

`backend` is `search_manager.search`; the result also records the requests
issued, in order. -/

def EXACT_MATCH_THRESHOLD : Nat := 3

def stage1Request (user_message : String) (final_filter : Option String) : SearchRequest :=
  { query := some (sanitizeQuery user_message), filter := final_filter,
    useSemanticRanker := false, searchMode := "all", top := some 50 }

def stage2Request (llm : String → Option String) (user_message : String)
    (final_filter : Option String) (search_mode : String) (use_semantic_ranker : Bool) :
    SearchRequest :=
  { query := rewriteQueryV2 llm user_message, filter := final_filter,
    useSemanticRanker := use_semantic_ranker, searchMode := search_mode, top := none }

def twoStageSearch (backend : SearchRequest → List SearchHit) (llm : String → Option String)
    (user_message : String) (final_filter : Option String) (search_mode : String)
    (use_semantic_ranker : Bool) : List SearchHit × List SearchRequest :=
  let req1 := stage1Request user_message final_filter
  let exact_results := backend req1
  if exact_results.length < EXACT_MATCH_THRESHOLD then
    let req2 := stage2Request llm user_message final_filter search_mode use_semantic_ranker
    (dedupResults (exact_results ++ backend req2), [req1, req2])
  else
    (dedupResults exact_results, [req1])

/-! ### Page-number extraction (chat_manager_v2.py lines 541-576)

`re.search(r'#page=(\d+)', path)` then `re.search(r'\(p\.(\d+)\)', filename)`;
if both fail the hit is a "rogue document" and gets page 1. -/

/-- Leftmost `#page=(\d+)` match in `cs`, returning the page number. -/
def findPageFragment : List Char → Option Nat
  | [] => none
  | c :: cs =>
    let here :=
      if "#page=".toList.isPrefixOf (c :: cs) then
        let ds := ((c :: cs).drop 6).takeWhile Char.isDigit
        if ds.isEmpty then none else some (digitsToNat ds)
      else none
    match here with
    | some n => some n
    | none => findPageFragment cs

/-- Leftmost `\(p\.(\d+)\)` match in `cs`, returning the page number. -/
def findPageSuffix : List Char → Option Nat
  | [] => none
  | c :: cs =>
    let here :=
      if "(p.".toList.isPrefixOf (c :: cs) then
        let ds := ((c :: cs).drop 3).takeWhile Char.isDigit
        if ds.isEmpty then none
        else
          match ((c :: cs).drop 3).drop ds.length with
          | ')' :: _ => some (digitsToNat ds)
          | _ => none
      else none
    match here with
    | some n => some n
    | none => findPageSuffix cs

abbrev PageKey := String × Nat

/-- The `(filename, page)` key of one hit.  When the page is recovered from the
filename suffix, the filename is truncated at the first `" (p."` (the split in
the source uses a leading space though the regex does not require one). -/
def keyOf (h : SearchHit) : PageKey :=
  let filename := pyUnquote h.metadata_storage_name
  let fromPath :=
    if h.metadata_storage_path ≠ "" then findPageFragment h.metadata_storage_path.toList
    else none
  match fromPath with
  | some p => (filename, p)
  | none =>
    match findPageSuffix filename.toList with
    | some p => ((pySplit filename " (p.").headD filename, p)
    | none => (filename, 1)

/-! ### Citation construction (chat_manager_v2.py lines 588-637) -/

/-- `re.sub(r'\s*\(p\.\d+\)$', '', s)`: strip one trailing `(p.N)` and the
whitespace run before it. -/
def stripTrailingPageSuffix (s : String) : String :=
  match s.toList.reverse with
  | ')' :: rest =>
    let ds := rest.takeWhile Char.isDigit
    if ds.isEmpty then s
    else
      match rest.drop ds.length with
      | '.' :: 'p' :: '(' :: rest2 => String.mk ((rest2.dropWhile isPySpace).reverse)
      | _ => s
  | _ => s

/-- The `blob_path` stored in a citation (lines 592-629).  `container` is
`self.container_name`; `filename` is the (possibly suffix-stripped) key name. -/
def computeBlobPath (container : String) (user_folder : Option String)
    (filename path : String) : String :=
  let fallback :=
    match user_folder with
    | some uf => uf ++ "/drawings/" ++ filename
    | none => "drawings/" ++ filename
  if path = "" then fallback
  else
    let bp :=
      if pyStartsWith path "https://direct_fetch/" then
        pyUnquote (((pySplit (pyReplace path "https://direct_fetch/" "") "#").headD "") )
      else if pyIn container path then
        let parts := pySplit path ("/" ++ container ++ "/")
        if parts.length > 1 then pyUnquote ((pySplit (parts.getD 1 "") "#").headD "")
        else fallback
      else if !pyStartsWith path "http" then path
      else fallback
    stripTrailingPageSuffix bp

def mkCitation (container : String) (user_folder : Option String)
    (key : PageKey) (h : SearchHit) : Citation :=
  { filepath := computeBlobPath container user_folder key.1 h.metadata_storage_path,
    url := "",
    path := h.metadata_storage_path,
    title := h.title,
    page := key.2 }

/-! ### Page aggregation (chat_manager_v2.py lines 536-641)

Python dicts keyed by `(filename, page)` are modelled as insertion-ordered
association lists.  The boost of the earlier version was removed in v2
(`boost = 0`), so the adjusted rank is the enumeration index. -/

def lookupA {β : Type} (k : PageKey) : List (PageKey × β) → Option β
  | [] => none
  | (k', v) :: t => if k' = k then some v else lookupA k t

/-- `d[k] = v` on an insertion-ordered association list. -/
def setA {β : Type} (k : PageKey) (v : β) : List (PageKey × β) → List (PageKey × β)
  | [] => [(k, v)]
  | (k', v') :: t => if k' = k then (k, v) :: t else (k', v') :: setA k v t

structure AggState where
  grouped : List (PageKey × List String)
  citationsMap : List (PageKey × Citation)
  ranks : List (PageKey × Nat)
deriving Repr

def emptyAgg : AggState := ⟨[], [], []⟩

def aggStep (container : String) (user_folder : Option String)
    (st : AggState) (rank : Nat) (h : SearchHit) : AggState :=
  let key := keyOf h
  let adjusted_rank := rank
  let ranks' :=
    match lookupA key st.ranks with
    | none => setA key adjusted_rank st.ranks
    | some r => setA key (min r adjusted_rank) st.ranks
  let (grouped', citations') :=
    match lookupA key st.grouped with
    | none =>
      (setA key ([] : List String) st.grouped,
       setA key (mkCitation container user_folder key h) st.citationsMap)
    | some _ => (st.grouped, st.citationsMap)
  let grouped'' :=
    match lookupA key grouped' with
    | some chunks =>
      if chunks.contains h.content then grouped'
      else setA key (chunks ++ [h.content]) grouped'
    | none => grouped'
  ⟨grouped'', citations', ranks'⟩

def aggRun (container : String) (user_folder : Option String) :
    AggState → Nat → List SearchHit → AggState
  | st, _, [] => st
  | st, i, h :: t => aggRun container user_folder (aggStep container user_folder st i h) (i + 1) t

/-- `for rank, result in enumerate(search_results): ...` -/
def aggregatePages (container : String) (user_folder : Option String)
    (hits : List SearchHit) : AggState :=
  aggRun container user_folder emptyAgg 0 hits

/-! ### Context assembly (chat_manager_v2.py lines 643-714)

`sorted(grouped_context.keys(), key=lambda k: page_ranks[k])` is a stable sort
of the insertion-ordered key list; it is modelled by a stable insertion sort
(all stable sorts by the same key agree).  The `_clean_content` scrubbing
(lines 217-259) is pure text cleanup orthogonal to every claim below and is
taken as an opaque function parameter `clean`. -/

/-- Insert `x` before the first element it must precede; elements that compare
equal keep their original relative order. -/
def insertStable {α : Type} (le : α → α → Bool) (x : α) : List α → List α
  | [] => [x]
  | y :: t => if le y x && !le x y then y :: insertStable le x t else x :: y :: t

def stableSort {α : Type} (le : α → α → Bool) : List α → List α
  | [] => []
  | x :: t => insertStable le x (stableSort le t)

def rankOfKey (st : AggState) (k : PageKey) : Nat :=
  (lookupA k st.ranks).getD 0

def sortKeysByRank (st : AggState) : List PageKey :=
  stableSort (fun a b => rankOfKey st a ≤ rankOfKey st b) (st.grouped.map Prod.fst)

/-- `explicit_keys + other_keys` reordering (lines 661-664). -/
def prioritizeExplicitPage (explicit_page : Option Nat) (keys : List PageKey) : List PageKey :=
  match explicit_page with
  | some p => keys.filter (fun k => k.2 = p) ++ keys.filter (fun k => ¬ k.2 = p)
  | none => keys

def context_limit : Nat := 25

def perPageCharBudget : Nat := 8000

def ellipsisMarker : String := "..."

/-- `if len(page_content) > 8000: page_content = page_content[:8000] + "..."` -/
def truncatePage (s : String) : String :=
  if s.length > perPageCharBudget then String.mk (s.toList.take perPageCharBudget) ++ ellipsisMarker
  else s

structure ContextEntry where
  filename : String
  page : Nat
  pageText : String
  block : String
deriving DecidableEq, Repr

def defaultCitation : Citation := ⟨"", "", "", "", 0⟩

def mkContextEntry (clean : String → String) (st : AggState) (key : PageKey) : ContextEntry :=
  let chunks := (lookupA key st.grouped).getD []
  let joined := joinWith "\n...\n" chunks
  let page_content := truncatePage (clean joined)
  let title := ((lookupA key st.citationsMap).getD defaultCitation).title
  let block :=
    if title ≠ "" then
      "[Document: " ++ key.1 ++ ", Page: " ++ toString key.2 ++ ", Title: " ++ title ++ "]\n" ++
        page_content ++ "\n"
    else
      "[Document: " ++ key.1 ++ ", Page: " ++ toString key.2 ++ "]\n" ++ page_content ++ "\n"
  ⟨key.1, key.2, page_content, block⟩

/-- The per-page loop over `sorted_keys[:context_limit]` building
`context_parts` and `citations`. -/
def assembleContext (clean : String → String) (st : AggState)
    (explicit_page : Option Nat) : List ContextEntry × List Citation :=
  let sorted_keys := prioritizeExplicitPage explicit_page (sortKeysByRank st)
  let chosen := sorted_keys.take context_limit
  (chosen.map (mkContextEntry clean st),
   chosen.map (fun key => (lookupA key st.citationsMap).getD defaultCitation))

/-! ### Final context string and the no-documents outcome
(chat_manager_v2.py lines 716-722) -/

structure ChatMessage where
  role : String
  content : String
deriving DecidableEq, Repr

/-- The early-return message of line 720 (without its optional debug suffix
logic inlined below). -/
def noticeNoDocs (scope_filter : Option String) : String :=
  "검색된 문서가 없습니다. 다른 검색어를 시도해 보세요." ++
    (match optNonEmpty scope_filter with
     | some sf => "\n\n(Debug: Filter applied: " ++ sf ++ ")"
     | none => "")

def emptyContextPlaceholder : String := "(No new documents found. Use conversation history.)"

def eqSeparator : String := String.mk (List.replicate 50 '=')

inductive ChatContextResult where
  | noDocuments (message : String)
  | assembled (context : String)
deriving DecidableEq, Repr

/-- `if not context_parts and not conversation_history: return ...` then
`context = "\n" + "="*50 + "\n".join(context_parts) if context_parts else "(No new ...)"`. -/
def finalizeContext (scope_filter : Option String) (context_parts : List String)
    (conversation_history : List ChatMessage) : ChatContextResult :=
  if context_parts = [] ∧ conversation_history = [] then
    .noDocuments (noticeNoDocs scope_filter)
  else if context_parts ≠ [] then
    .assembled ("\n" ++ eqSeparator ++ joinWith "\n" context_parts)
  else
    .assembled emptyContextPlaceholder

/-! ### Citation Linkifier `_linkify_citations` (chat_manager_v2.py lines 842-919)

The pattern `\(([^):]+):\s*p\.\s*(\d+)\)` has no backtracking freedom: after
`(` the first group is the maximal run of characters other than `)`/`:`
(non-empty), then `:`, whitespace, `p.`, whitespace, a maximal non-empty digit
run, then `)`.  `re.sub` replaces the leftmost matches, resuming after each
match.  `generate_blob_sas` is the external parameter `sas` (`none` models the
call failing and returning `None`). -/

/-- Try to match the citation pattern just after an opening `(`; on success
return `(consumed length after the paren, first group, digit group)`. -/
def matchCitAfterParen (t : List Char) : Option (Nat × List Char × List Char) :=
  let fname := t.takeWhile (fun c => c ≠ ')' && c ≠ ':')
  if fname.isEmpty then none
  else
    match t.drop fname.length with
    | ':' :: t2 =>
      let ws1 := t2.takeWhile isPySpace
      (match t2.drop ws1.length with
       | 'p' :: '.' :: t4 =>
         let ws2 := t4.takeWhile isPySpace
         let t5 := t4.drop ws2.length
         let digits := t5.takeWhile Char.isDigit
         if digits.isEmpty then none
         else
           match t5.drop digits.length with
           | ')' :: _ =>
             some (fname.length + 1 + ws1.length + 2 + ws2.length + digits.length + 1,
               fname, digits)
           | _ => none
       | _ => none)
    | _ => none

/-- `re.sub` with replacement callback `repl raw group1 group2` where `raw` is
the whole matched span.  `fuel` makes the recursion structural; each step
consumes at least one character, so `fuel = length of the input` never runs
out (the fuel-exhausted branch returns the rest unchanged). -/
def subCitations (repl : List Char → List Char → List Char → List Char) :
    Nat → List Char → List Char
  | _, [] => []
  | 0, cs => cs
  | fuel + 1, c :: cs' =>
    if c = '(' then
      match matchCitAfterParen cs' with
      | some (k, f, p) =>
        repl ('(' :: cs'.take k) f p ++ subCitations repl fuel (cs'.drop k)
      | none => c :: subCitations repl fuel cs'
    else
      c :: subCitations repl fuel cs'

/-- The `find_citation` helper (lines 852-888): first citation in list order
whose page matches and whose name matches by one of the four rules. -/
def findCitation (citations : List Citation) (fname_text page_text : String) :
    Option Citation :=
  let page_num := digitsToNat page_text.toList
  let fl := pyStrip (pyLower fname_text)
  citations.findSome? (fun cit =>
    if cit.page ≠ page_num then none
    else
      let basename := pyLower ((pySplit cit.filepath "/").getLastD "")
      if fl = basename then some cit
      else if fl = splitextRoot basename then some cit
      else
        let clean_fname := pyStrip (pyReplace (pyReplace fl "..." "") "…" "")
        if clean_fname.length > 5 && pyStartsWith basename clean_fname then some cit
        else
          let title := pyLower cit.title
          if title ≠ "" && (pyIn fl title || pyIn title fl) then some cit
          else none)

/-- The `replace_match` callback (lines 895-917). -/
def replaceCitMatch (sas : String → Option String) (citations : List Citation)
    (raw fname page : List Char) : List Char :=
  match findCitation citations (String.mk fname) (String.mk page) with
  | some cit =>
    if cit.filepath ≠ "" then
      match sas cit.filepath with
      | some u =>
        if u ≠ "" then
          let url := u ++ "#page=" ++ String.mk page
          ("[".toList ++ raw ++ "](".toList ++ url.toList ++ ")".toList)
        else raw
      | none => raw
    else raw
  | none => raw

def linkifyCitations (sas : String → Option String) (text : String)
    (citations : List Citation) : String :=
  if text = "" ∨ citations = [] then text
  else String.mk (subCitations (replaceCitMatch sas citations) text.toList.length text.toList)

/-! ### Filter construction and Python-side post-filters
(chat_manager.py lines 227-321, chat_manager_v2.py lines 336-512; the two
versions build identical strings).  `nfc` is `unicodedata.normalize('NFC', ·)`,
an external Unicode-library function taken as a parameter (it is the identity
on ASCII names). -/

/-- `re.sub(r'([+\-&|!(){}\[\]^"~*?:\\])', r'\\\1', s)`. -/
def escapeSpecials (s : String) : String :=
  String.mk (s.toList.foldr
    (fun c acc => if querySpecials.contains c then '\\' :: c :: acc else c :: acc) [])

/-- `f.replace("'", "''")` then special-character escaping, embedded in
`search.ismatch('"<name>"', 'metadata_storage_name')`. -/
def ismatchCondition (f : String) : String :=
  "search.ismatch('\"" ++ escapeSpecials (pyReplace f "'" "''") ++
    "\"', 'metadata_storage_name')"

/-- Scope filter from the selected-file list (lines 232-248 / 343-361). -/
def buildScopeFilter (nfc : String → String) (available_files : List String) :
    Option String :=
  if available_files = [] then none
  else
    let conditions := (available_files.map nfc).map ismatchCondition
    if conditions = [] then none
    else some ("(" ++ joinWith " or " conditions ++ ")")

/-- `_extract_filename_filter` (lines 87-131 / 118-162): longest-name-first
detection of a file mentioned in the question. -/
def extractFilenameFilter (nfc : String → String) (user_message : String)
    (available_files : List String) : Option String :=
  if available_files = [] then none
  else
    let msg_lower := pyLower user_message
    let sorted_files := stableSort (fun a b => b.length ≤ a.length) available_files
    match sorted_files.find? (fun fn =>
        pyIn (pyLower fn) msg_lower || pyIn (pyLower (splitextRoot fn)) msg_lower) with
    | some matched => some (ismatchCondition (nfc matched))
    | none => none

/-- Combining base, scope and specific-file predicates with `" and "`
(lines 258-270 / 370-382); Python truthiness skips empty strings. -/
def combineFilters (filter_expr scope_filter specific_file_filter : Option String) :
    Option String :=
  let fs :=
    (match optNonEmpty filter_expr with
     | some fe => ["(" ++ fe ++ ")"]
     | none => []) ++
    (match optNonEmpty scope_filter with
     | some sc => [sc]
     | none => []) ++
    (match optNonEmpty specific_file_filter with
     | some sp => ["(" ++ sp ++ ")"]
     | none => [])
  if fs = [] then none else some (joinWith " and " fs)

/-- The combined OData filter of one request. -/
def finalFilter (nfc : String → String) (user_message : String)
    (filter_expr : Option String) (available_files : List String) : Option String :=
  combineFilters filter_expr (buildScopeFilter nfc available_files)
    (extractFilenameFilter nfc user_message available_files)

/-- Python-side user-folder enforcement (lines 309-321 / 500-512): keep hits
whose unquoted path contains the folder, unless that would drop everything. -/
def userFolderFilter (user_folder : Option String) (results : List SearchHit) :
    List SearchHit :=
  match optNonEmpty user_folder with
  | none => results
  | some uf =>
    if results = [] then results
    else
      let filtered := results.filter (fun d => pyIn uf (pyUnquote d.metadata_storage_path))
      if filtered = [] then results else filtered

/-- Merging direct-fetch results into search results, skipping paths already
present (lines 298-307 / 489-498; the `existing_paths` set is computed once,
before the loop). -/
def combineDirect (search_results direct_results : List SearchHit) : List SearchHit :=
  if direct_results = [] then search_results
  else
    let existing_paths := search_results.map (·.metadata_storage_path)
    search_results ++
      direct_results.filter (fun r => !existing_paths.contains r.metadata_storage_path)

/-- The v2 merged result list as handed to the Page Aggregator
(chat_manager_v2.py lines 399-512): two-stage search, direct-result combine,
then the user-folder post-filter.  Forced inclusion was removed in this
version (lines 531-533 are `pass`). -/
def retrievedV2 (backend : SearchRequest → List SearchHit) (llm : String → Option String)
    (direct_results : List SearchHit) (user_message : String)
    (final_filter : Option String) (search_mode : String) (use_semantic_ranker : Bool)
    (user_folder : Option String) : List SearchHit :=
  userFolderFilter user_folder
    (combineDirect
      (twoStageSearch backend llm user_message final_filter search_mode use_semantic_ranker).1
      direct_results)

/-! ### The earlier pipeline with forced inclusion (chat_manager.py) -/

namespace V1

open AISearch

/-- `_rewrite_query` of chat_manager.py lines 133-171 (this version returns the
LLM rewrite on success and the raw message when the call raises). -/
def rewriteQuery (llm : String → Option String) (user_message : String) : String :=
  if loadListTrigger user_message then
    user_message ++ " Electrical Load List Motor Heater kW HP Tag No Rating"
  else if pidListTrigger user_message then
    user_message ++ " PIPING AND INSTRUMENT DIAGRAM LIST DRAWING INDEX TABLE"
  else
    match llm user_message with
    | some rewritten => pyStrip rewritten
    | none => user_message

/-- Per-target filter of the forced-inclusion fetches (lines 422-429). -/
def fileSpecificFilter (final_filter : Option String) (target : String) : String :=
  let base := ismatchCondition target
  match optNonEmpty final_filter with
  | some ff => "(" ++ ff ++ ") and (" ++ base ++ ")"
  | none => base

/-- The bounded wildcard fetch for one selected document (lines 431-438). -/
def forcedIndexRequest (final_filter : Option String) (target : String) : SearchRequest :=
  { query := some "*", filter := some (fileSpecificFilter final_filter target),
    useSemanticRanker := false, searchMode := "all", top := some 10 }

def listSearchQuery : String :=
  "PIPING INSTRUMENT DIAGRAM LIST INDEX TABLE DRAWING LIST 도면 목록 리스트"

/-- The list-specific fetch for one selected document (lines 443-452). -/
def forcedListRequest (final_filter : Option String) (target : String) : SearchRequest :=
  { query := some listSearchQuery, filter := some (fileSpecificFilter final_filter target),
    useSemanticRanker := false, searchMode := "any", top := some 10 }

def listTriggerKeywords : List String :=
  ["LIST", "INDEX", "TABLE", "리스트", "목록", "비교", "COMPARE"]

/-- Body of the `for target_file in normalized_files:` loop (lines 410-455).
The `is_found` bookkeeping of lines 412-421 only feeds a log line — the
fetches are issued unconditionally ("Even if found, we ALWAYS fetch"). -/
def forceInclusionStep (backend : SearchRequest → List SearchHit)
    (final_filter : Option String) (search_query : String)
    (acc : List SearchHit) (target : String) : List SearchHit :=
  let index_pages := backend (forcedIndexRequest final_filter target)
  let acc1 := if index_pages = [] then acc else acc ++ index_pages
  if listTriggerKeywords.any (fun kw => pyIn kw (pyUpper search_query)) then
    let list_results := backend (forcedListRequest final_filter target)
    if list_results = [] then acc1 else acc1 ++ list_results
  else acc1

/-- Step 4 "Force Inclusion of Selected Files" (lines 396-455). -/
def forceInclusion (backend : SearchRequest → List SearchHit) (nfc : String → String)
    (available_files : List String) (search_query : String)
    (final_filter : Option String) (search_results : List SearchHit) : List SearchHit :=
  if available_files = [] then search_results
  else
    (available_files.map nfc).foldl
      (forceInclusionStep backend final_filter search_query) search_results

/-- The retrieval portion of `get_chat_response` (chat_manager.py lines
220-455): filter construction, direct fetch, first search, user-folder
enforcement, the two fallbacks, then forced inclusion.  `backend`, `llm`,
`directFetch` and `nfc` are the external collaborators. -/
def orchestrator (backend : SearchRequest → List SearchHit) (llm : String → Option String)
    (directFetch : String → Option String → List SearchHit) (nfc : String → String)
    (user_message : String) (search_mode : String) (use_semantic_ranker : Bool)
    (filter_expr : Option String) (available_files : List String)
    (user_folder : Option String) : List SearchHit :=
  let scope_filter := buildScopeFilter nfc available_files
  let specific_file_filter := extractFilenameFilter nfc user_message available_files
  let final := combineFilters filter_expr scope_filter specific_file_filter
  let direct_results := available_files.foldl (fun acc f => acc ++ directFetch f user_folder) []
  let search_query := rewriteQuery llm user_message
  let req0 : SearchRequest :=
    { query := some search_query, filter := final,
      useSemanticRanker := use_semantic_ranker, searchMode := search_mode, top := none }
  let r0 := backend req0
  let r1 := userFolderFilter user_folder (combineDirect r0 direct_results)
  let retryScope : Option String :=
    match optNonEmpty scope_filter with
    | some sc =>
      match optNonEmpty filter_expr with
      | some fe => some ("(" ++ fe ++ ") and " ++ sc)
      | none => some sc
    | none => filter_expr
  let retryReq : SearchRequest :=
    { query := some search_query, filter := retryScope,
      useSemanticRanker := use_semantic_ranker, searchMode := search_mode, top := none }
  let r2 :=
    if r1 = [] ∧ specific_file_filter ≠ none then
      userFolderFilter user_folder (backend retryReq)
    else r1
  let wildcardReq : SearchRequest :=
    { query := some "*", filter := retryScope,
      useSemanticRanker := use_semantic_ranker, searchMode := search_mode, top := none }
  let r3 :=
    if r2 = [] ∧ scope_filter ≠ none then
      userFolderFilter user_folder (backend wildcardReq)
    else r2
  forceInclusion backend nfc available_files search_query final r3

end V1

/-! ## Lemmas about deduplication -/

theorem dedupAux_append (l1 l2 : List SearchHit) (seen : List String) :
    dedupAux seen (l1 ++ l2) = dedupAux seen l1 ++ dedupAux (seenAfter seen l1) l2 := by
  induction l1 generalizing seen with
  | nil => simp [dedupAux, seenAfter]
  | cons h t ih =>
    by_cases hc : resultId h ∈ seen
    · simp [dedupAux, seenAfter, hc, ih]
    · simp [dedupAux, seenAfter, hc, ih]

theorem mem_of_mem_dedupAux {h : SearchHit} (seen : List String) (l : List SearchHit)
    (hm : h ∈ dedupAux seen l) : h ∈ l := by
  induction l generalizing seen with
  | nil => simp [dedupAux] at hm
  | cons a t ih =>
    simp only [dedupAux] at hm
    by_cases hc : seen.contains (resultId a)
    · rw [if_pos hc] at hm
      exact List.mem_cons_of_mem _ (ih _ hm)
    · rw [if_neg hc] at hm
      rcases List.mem_cons.mp hm with rfl | hm'
      · exact List.mem_cons_self _ _
      · exact List.mem_cons_of_mem _ (ih _ hm')

theorem exists_dedupAux {h : SearchHit} (seen : List String) (l : List SearchHit)
    (hm : h ∈ l) (hs : seen.contains (resultId h) = false) :
    ∃ h', h' ∈ dedupAux seen l ∧ resultId h' = resultId h := by
  induction l generalizing seen with
  | nil => simp at hm
  | cons a t ih =>
    simp only [dedupAux]
    by_cases hc : seen.contains (resultId a)
    · have hne : resultId h ≠ resultId a := by
        intro he
        rw [he, hc] at hs
        simp at hs
      have hm' : h ∈ t := by
        rcases List.mem_cons.mp hm with rfl | h'
        · exact absurd rfl hne
        · exact h'
      rw [if_pos hc]
      exact ih _ hm' hs
    · by_cases hid : resultId a = resultId h
      · exact ⟨a, by rw [if_neg hc]; exact List.mem_cons_self _ _, hid⟩
      · have hm' : h ∈ t := by
          rcases List.mem_cons.mp hm with rfl | h'
          · exact absurd rfl hid
          · exact h'
        have hs' : (resultId a :: seen).contains (resultId h) = false := by
          simp only [List.contains_cons, Bool.or_eq_false_iff, beq_eq_false_iff_ne]
          exact ⟨fun he => hid he.symm, hs⟩
        rcases ih _ hm' hs' with ⟨h', hh1, hh2⟩
        refine ⟨h', ?_, hh2⟩
        rw [if_neg hc]
        exact List.mem_cons_of_mem _ hh1

/-! ## The scenario hits of spec §8 ("exact phrase wins") -/

def hitPage7 : SearchHit :=
  ⟨"A.pdf (p.7)", "", "PIPING AND INSTRUMENT DIAGRAM LIST", ""⟩

def hitPage12 : SearchHit :=
  ⟨"A.pdf (p.12)", "", "unrelated", ""⟩

/-! ## Claim theorems -/

/-- C2: the recall (expanded-query) pass is issued if and only if the precision
pass returned fewer than `EXACT_MATCH_THRESHOLD = 3` hits; with 3 or more
precision hits no expansion is performed and the merged list is exactly the
precision hits after deduplication. -/
theorem C2_two_stage_conditionality
    (backend : SearchRequest → List SearchHit) (llm : String → Option String)
    (user_message : String) (final_filter : Option String)
    (search_mode : String) (use_semantic_ranker : Bool) :
    (stage2Request llm user_message final_filter search_mode use_semantic_ranker ∈
        (twoStageSearch backend llm user_message final_filter search_mode
          use_semantic_ranker).2 ↔
      (backend (stage1Request user_message final_filter)).length < EXACT_MATCH_THRESHOLD)
    ∧ (EXACT_MATCH_THRESHOLD ≤ (backend (stage1Request user_message final_filter)).length →
        twoStageSearch backend llm user_message final_filter search_mode use_semantic_ranker =
          (dedupResults (backend (stage1Request user_message final_filter)),
            [stage1Request user_message final_filter]))
    ∧ ((backend (stage1Request user_message final_filter)).length < EXACT_MATCH_THRESHOLD →
        (twoStageSearch backend llm user_message final_filter search_mode
            use_semantic_ranker).1 =
          dedupResults (backend (stage1Request user_message final_filter) ++
            backend (stage2Request llm user_message final_filter search_mode
              use_semantic_ranker))) := by
  have hne : stage2Request llm user_message final_filter search_mode use_semantic_ranker ≠
      stage1Request user_message final_filter := by
    intro he
    have h2 := congrArg SearchRequest.top he
    simp [stage1Request, stage2Request] at h2
  refine ⟨?_, ?_, ?_⟩
  · by_cases hlt :
        (backend (stage1Request user_message final_filter)).length < EXACT_MATCH_THRESHOLD
    · simp [twoStageSearch, hlt]
    · simp [twoStageSearch, hlt, hne]
  · intro hge
    have hlt : ¬ (backend (stage1Request user_message final_filter)).length <
        EXACT_MATCH_THRESHOLD := by omega
    simp [twoStageSearch, hlt]
  · intro hlt
    simp [twoStageSearch, hlt]

/-- Witness for C2 at a concrete backend returning three precision hits. -/
theorem C2_two_stage_conditionality_witness :
    (3 ≤ (((fun req : SearchRequest => if req.top = some 50 then
        [hitPage7, hitPage12, ⟨"C.pdf", "", "c", ""⟩] else [])
          (stage1Request "question" none)).length))
    ∧ twoStageSearch (fun req : SearchRequest => if req.top = some 50 then
        [hitPage7, hitPage12, ⟨"C.pdf", "", "c", ""⟩] else [])
        (fun _ => none) "question" none "any" false =
      (dedupResults ((fun req : SearchRequest => if req.top = some 50 then
        [hitPage7, hitPage12, ⟨"C.pdf", "", "c", ""⟩] else [])
          (stage1Request "question" none)), [stage1Request "question" none]) :=
  ⟨by decide,
    (C2_two_stage_conditionality
      (fun req : SearchRequest => if req.top = some 50 then
        [hitPage7, hitPage12, ⟨"C.pdf", "", "c", ""⟩] else [])
      (fun _ => none) "question" none "any" false).2.1 (by decide)⟩

/-- C3: the merged list is stage-1 hits then stage-2 hits, deduplicated by
`(name, first 50 chars of content)` keeping the first occurrence, so a key
occurring in stage 1 survives through a stage-1 hit; in the §8 scenario the
top entry of the merged list is the page-7 precision hit. -/
theorem C3_merge_dedup_order :
    (∀ l1 l2 : List SearchHit,
      dedupResults (l1 ++ l2) = dedupResults l1 ++ dedupAux (seenAfter [] l1) l2)
    ∧ (∀ (l1 l2 : List SearchHit) (h : SearchHit), h ∈ l1 →
      ∃ h', h' ∈ dedupResults (l1 ++ l2) ∧ resultId h' = resultId h ∧ h' ∈ l1)
    ∧ ((twoStageSearch
        (fun req => if req.searchMode = "all" then [hitPage7] else [hitPage12])
        (fun _ => none) "P&ID 도면 리스트" none "any" false).1.head? = some hitPage7) := by
  refine ⟨fun l1 l2 => dedupAux_append l1 l2 [], ?_, by decide⟩
  intro l1 l2 h hm
  rcases exists_dedupAux [] l1 hm rfl with ⟨h', hh1, hh2⟩
  refine ⟨h', ?_, hh2, mem_of_mem_dedupAux [] l1 hh1⟩
  rw [show dedupResults (l1 ++ l2) = dedupResults l1 ++ dedupAux (seenAfter [] l1) l2 from
    dedupAux_append l1 l2 []]
  exact List.mem_append_left _ hh1

/-- Witness for C3 at a concrete one-element stage-1 list. -/
theorem C3_merge_dedup_order_witness :
    hitPage7 ∈ [hitPage7]
    ∧ ∃ h', h' ∈ dedupResults ([hitPage7] ++ [hitPage12])
        ∧ resultId h' = resultId hitPage7 ∧ h' ∈ [hitPage7] :=
  ⟨by decide, C3_merge_dedup_order.2.1 [hitPage7] [hitPage12] hitPage7 (by decide)⟩

/-- C7: a hit whose page number is recoverable neither from a `#page=N` path
fragment nor from a `(p.N)` name suffix is assigned PageKey
`(documentName, 1)` and kept by the aggregator rather than discarded. -/
theorem C7_rogue_document_default (container : String) (user_folder : Option String)
    (h : SearchHit)
    (hpath : findPageFragment h.metadata_storage_path.toList = none)
    (hname : findPageSuffix (pyUnquote h.metadata_storage_name).toList = none) :
    keyOf h = (pyUnquote h.metadata_storage_name, 1)
    ∧ lookupA (pyUnquote h.metadata_storage_name, 1)
        (aggregatePages container user_folder [h]).grouped = some [h.content] := by
  have hkey : keyOf h = (pyUnquote h.metadata_storage_name, 1) := by
    unfold keyOf
    simp only [String.toList] at hpath hname
    by_cases hp : h.metadata_storage_path ≠ ""
    · simp [hp, hpath, hname]
    · simp [hp, hname]
  refine ⟨hkey, ?_⟩
  simp [aggregatePages, aggRun, aggStep, hkey, emptyAgg, lookupA, setA]

/-- Witness for C7 at a concrete metadata-free hit. -/
theorem C7_rogue_document_default_witness :
    (findPageFragment (SearchHit.mk "Report.pdf" "" "contents" "").metadata_storage_path.toList
        = none)
    ∧ (findPageSuffix (pyUnquote
        (SearchHit.mk "Report.pdf" "" "contents" "").metadata_storage_name).toList = none)
    ∧ (keyOf (SearchHit.mk "Report.pdf" "" "contents" "") = ("Report.pdf", 1)
      ∧ lookupA ("Report.pdf", 1)
          (aggregatePages "cont" none [SearchHit.mk "Report.pdf" "" "contents" ""]).grouped
        = some ["contents"]) := by
  refine ⟨by decide, by decide, ?_⟩
  have hw := C7_rogue_document_default "cont" none (SearchHit.mk "Report.pdf" "" "contents" "")
    (by decide) (by decide)
  have hq : pyUnquote (SearchHit.mk "Report.pdf" "" "contents" "").metadata_storage_name
      = "Report.pdf" := by decide
  rw [hq] at hw
  exact ⟨hw.1, by
    have := hw.2
    simpa using this⟩

/-! ## Rank bookkeeping: specification and lemmas for C5 -/

/-- Minimum of two optional ranks (`none` = no observation yet). -/
def optMin : Option Nat → Option Nat → Option Nat
  | none, b => b
  | some a, none => some a
  | some a, some b => some (min a b)

def listMinNat : List Nat → Option Nat
  | [] => none
  | a :: t => optMin (some a) (listMinNat t)

/-- The ranks (enumeration indices, starting at `i`) at which hits mapping to
`key` are observed. -/
def ranksObservedFrom (i : Nat) (key : PageKey) : List SearchHit → List Nat
  | [] => []
  | h :: t =>
    if keyOf h = key then i :: ranksObservedFrom (i + 1) key t
    else ranksObservedFrom (i + 1) key t

def ranksObserved (key : PageKey) (hits : List SearchHit) : List Nat :=
  ranksObservedFrom 0 key hits

theorem optMin_none_right (a : Option Nat) : optMin a none = a := by
  cases a <;> rfl

theorem optMin_assoc (a b c : Option Nat) :
    optMin (optMin a b) c = optMin a (optMin b c) := by
  cases a <;> cases b <;> cases c <;> simp [optMin, Nat.min_assoc]

theorem lookupA_setA_same {β : Type} (k : PageKey) (v : β) (l : List (PageKey × β)) :
    lookupA k (setA k v l) = some v := by
  induction l with
  | nil => simp [setA, lookupA]
  | cons p t ih =>
    by_cases hk : p.1 = k
    · simp [setA, lookupA, hk]
    · simp [setA, lookupA, hk, ih]

theorem lookupA_setA_other {β : Type} (k k' : PageKey) (v : β) (l : List (PageKey × β))
    (hne : k' ≠ k) : lookupA k' (setA k v l) = lookupA k' l := by
  have hkk : ¬ k = k' := fun he => hne he.symm
  induction l with
  | nil => simp [setA, lookupA, hkk]
  | cons p t ih =>
    obtain ⟨pk, pv⟩ := p
    by_cases hk : pk = k
    · subst hk
      simp [setA, lookupA, hkk]
    · by_cases hk' : pk = k'
      · subst hk'
        simp [setA, lookupA, hk]
      · simp [setA, lookupA, hk, hk', ih]

theorem aggStep_ranks (container : String) (uf : Option String) (st : AggState)
    (i : Nat) (h : SearchHit) (key : PageKey) :
    lookupA key (aggStep container uf st i h).ranks =
      if keyOf h = key then optMin (lookupA key st.ranks) (some i)
      else lookupA key st.ranks := by
  unfold aggStep
  by_cases hk : keyOf h = key
  · subst hk
    cases hr : lookupA (keyOf h) st.ranks with
    | none => simp [hr, lookupA_setA_same, optMin]
    | some r => simp [hr, lookupA_setA_same, optMin]
  · cases hr : lookupA (keyOf h) st.ranks with
    | none => simp [hr, hk, lookupA_setA_other _ _ _ _ (fun he => hk he.symm)]
    | some r => simp [hr, hk, lookupA_setA_other _ _ _ _ (fun he => hk he.symm)]

theorem aggRun_ranks (container : String) (uf : Option String) (hits : List SearchHit) :
    ∀ (st : AggState) (i : Nat) (key : PageKey),
      lookupA key (aggRun container uf st i hits).ranks =
        optMin (lookupA key st.ranks) (listMinNat (ranksObservedFrom i key hits)) := by
  induction hits with
  | nil => intro st i key; simp [aggRun, ranksObservedFrom, listMinNat, optMin_none_right]
  | cons h t ih =>
    intro st i key
    have hstep := aggStep_ranks container uf st i h key
    by_cases hk : keyOf h = key
    · simp only [aggRun, ih, hstep, hk, if_true, ranksObservedFrom, listMinNat]
      rw [optMin_assoc]
    · simp only [aggRun, ih, hstep, hk, if_false, ranksObservedFrom]

/-- `bestRank` of a key is the minimum enumeration rank at which the key was
observed. -/
theorem aggRanks_eq (container : String) (uf : Option String) (hits : List SearchHit)
    (key : PageKey) :
    lookupA key (aggregatePages container uf hits).ranks =
      listMinNat (ranksObserved key hits) := by
  unfold aggregatePages ranksObserved
  rw [aggRun_ranks]
  simp [emptyAgg, lookupA, optMin]

theorem ranksObservedFrom_append (key : PageKey) (l1 l2 : List SearchHit) :
    ∀ i, ranksObservedFrom i key (l1 ++ l2) =
      ranksObservedFrom i key l1 ++ ranksObservedFrom (i + l1.length) key l2 := by
  induction l1 with
  | nil => intro i; simp [ranksObservedFrom]
  | cons h t ih =>
    intro i
    have harith : i + 1 + t.length = i + (t.length + 1) := by omega
    by_cases hk : keyOf h = key
    · simp only [List.cons_append, List.append_eq, ranksObservedFrom, hk, if_true, ih,
        List.length_cons]
      rw [harith]
    · simp only [List.cons_append, List.append_eq, ranksObservedFrom, hk, if_false, ih,
        List.length_cons]
      rw [harith]

theorem listMinNat_append (l1 l2 : List Nat) :
    listMinNat (l1 ++ l2) = optMin (listMinNat l1) (listMinNat l2) := by
  induction l1 with
  | nil => simp [listMinNat, optMin]
  | cons a t ih =>
    simp only [List.cons_append, List.append_eq, listMinNat, ih, optMin_assoc]

theorem optMin_some_left_le (r : Nat) (x : Option Nat) :
    ∃ r', optMin (some r) x = some r' ∧ r' ≤ r := by
  cases x with
  | none => exact ⟨r, rfl, Nat.le_refl r⟩
  | some b => exact ⟨min r b, rfl, Nat.min_le_left r b⟩

/-- C5: the aggregator's stored `bestRank` for every PageKey equals the minimum
rank observed so far for that key; consequently, as more hits are folded in,
the stored rank can only decrease (it is never reset), whatever the input. -/
theorem C5_rank_monotonicity :
    (∀ (container : String) (uf : Option String) (hits : List SearchHit) (key : PageKey),
      lookupA key (aggregatePages container uf hits).ranks =
        listMinNat (ranksObserved key hits))
    ∧ (∀ (container : String) (uf : Option String) (hits : List SearchHit) (key : PageKey)
        (m n : Nat), m ≤ n → ∀ r,
        lookupA key (aggregatePages container uf (hits.take m)).ranks = some r →
        ∃ r', lookupA key (aggregatePages container uf (hits.take n)).ranks = some r'
          ∧ r' ≤ r) := by
  refine ⟨aggRanks_eq, ?_⟩
  intro container uf hits key m n hmn r hr
  rw [aggRanks_eq] at hr
  rw [aggRanks_eq]
  have hsplit : hits.take n = hits.take m ++ (hits.take n).drop m := by
    conv_lhs => rw [← List.take_append_drop m (hits.take n)]
    rw [List.take_take, Nat.min_comm, Nat.min_eq_right hmn]
  rw [hsplit]
  unfold ranksObserved
  rw [ranksObservedFrom_append, listMinNat_append]
  unfold ranksObserved at hr
  rw [hr]
  exact optMin_some_left_le r _

/-- Witness for C5: two hits with the same key; after one hit the stored rank
is 0, and it stays at most 0 after both. -/
theorem C5_rank_monotonicity_witness :
    (1 ≤ 2)
    ∧ (lookupA ("A.pdf", 1) (aggregatePages "cont" none
        ([SearchHit.mk "A.pdf" "" "x" "", SearchHit.mk "A.pdf" "" "y" ""].take 1)).ranks
      = some 0)
    ∧ ∃ r', lookupA ("A.pdf", 1) (aggregatePages "cont" none
        ([SearchHit.mk "A.pdf" "" "x" "", SearchHit.mk "A.pdf" "" "y" ""].take 2)).ranks
      = some r' ∧ r' ≤ 0 :=
  ⟨by decide, by decide,
    C5_rank_monotonicity.2 "cont" none
      [SearchHit.mk "A.pdf" "" "x" "", SearchHit.mk "A.pdf" "" "y" ""] ("A.pdf", 1)
      1 2 (by decide) 0 (by decide)⟩

/-! ## String-length facts for C6 -/

theorem string_length_mk (l : List Char) : (String.mk l).length = l.length := rfl

theorem string_length_append (a b : String) : (a ++ b).length = a.length + b.length := by
  cases a with
  | mk d1 =>
    cases b with
    | mk d2 =>
      show (String.mk d1 ++ String.mk d2).length = d1.length + d2.length
      have : String.mk d1 ++ String.mk d2 = String.mk (d1 ++ d2) := rfl
      rw [this, string_length_mk, List.length_append]

theorem truncatePage_length (s : String) :
    (truncatePage s).length ≤ perPageCharBudget + ellipsisMarker.length := by
  unfold truncatePage
  by_cases hl : s.length > perPageCharBudget
  · rw [if_pos hl, string_length_append, string_length_mk, List.length_take]
    have hsl : s.toList.length = s.length := rfl
    have : min perPageCharBudget s.toList.length = perPageCharBudget := by
      rw [Nat.min_eq_left]; omega
    omega
  · rw [if_neg hl]
    omega

/-- C6: the Context Assembler returns at most `context_limit = 25` entries; no
entry's page text exceeds `perPageCharBudget = 8000` characters plus the fixed
`"..."` marker, and the marker is appended only when truncation occurred. -/
theorem C6_budget_respect :
    (∀ (clean : String → String) (st : AggState) (explicit_page : Option Nat),
      (assembleContext clean st explicit_page).1.length ≤ context_limit)
    ∧ (∀ (clean : String → String) (st : AggState) (explicit_page : Option Nat)
        (e : ContextEntry), e ∈ (assembleContext clean st explicit_page).1 →
      e.pageText.length ≤ perPageCharBudget + ellipsisMarker.length)
    ∧ (∀ s : String,
        (s.length ≤ perPageCharBudget → truncatePage s = s)
        ∧ (perPageCharBudget < s.length →
            truncatePage s = String.mk (s.toList.take perPageCharBudget) ++ ellipsisMarker)) := by
  refine ⟨?_, ?_, ?_⟩
  · intro clean st explicit_page
    unfold assembleContext
    simp only [List.length_map]
    exact List.length_take_le _ _
  · intro clean st explicit_page e he
    unfold assembleContext at he
    simp only [List.mem_map] at he
    rcases he with ⟨key, _, rfl⟩
    show (mkContextEntry clean st key).pageText.length ≤ _
    unfold mkContextEntry
    exact truncatePage_length _
  · intro s
    constructor
    · intro hle
      unfold truncatePage
      rw [if_neg (by omega)]
    · intro hlt
      unfold truncatePage
      rw [if_pos (by omega)]

/-- Witness for C6 at a concrete one-hit aggregation. -/
theorem C6_budget_respect_witness :
    (mkContextEntry id (aggregatePages "cont" none [SearchHit.mk "A.pdf" "" "x" ""])
        ("A.pdf", 1)
      ∈ (assembleContext id (aggregatePages "cont" none [SearchHit.mk "A.pdf" "" "x" ""])
          none).1)
    ∧ (mkContextEntry id (aggregatePages "cont" none [SearchHit.mk "A.pdf" "" "x" ""])
        ("A.pdf", 1)).pageText.length ≤ perPageCharBudget + ellipsisMarker.length :=
  ⟨by decide,
    C6_budget_respect.2.1 id (aggregatePages "cont" none [SearchHit.mk "A.pdf" "" "x" ""])
      none _ (by decide)⟩

/-! ## C4: strict scope post-filtering -/

/-- A hit the backend (incorrectly) returns for a document outside the
selected set, but inside the user's folder. -/
def hitOutOfScope : SearchHit :=
  ⟨"B.pdf (p.1)", "https://acct.blob.core.windows.net/cont/user1/drawings/B.pdf",
    "bcontent", ""⟩

/-- Counterexample to C4: with a selection of `["A.pdf"]` (strict scoping via
the scope filter) and a backend that also returns a `B.pdf` hit inside the
user's folder, the engine keeps the out-of-scope document: `(B.pdf, 1)` is in
the final aggregated page set.  The only Python-side post-filter checks the
user folder, not the selected-document set. -/
theorem C4_strict_scope_counterexample :
    lookupA ("B.pdf", 1)
      (aggregatePages "cont" (some "user1")
        (retrievedV2 (fun req => if req.searchMode = "all" then [hitOutOfScope] else [])
          (fun _ => none) [] "question"
          (finalFilter id "question" none ["A.pdf"]) "any" false (some "user1"))).grouped
    ≠ none := by decide

/-- Reduction of `userFolderFilter` at a non-empty folder name. -/
theorem userFolderFilter_some (uf : String) (huf : uf ≠ "") (results : List SearchHit) :
    userFolderFilter (some uf) results =
      if results = [] then results
      else if results.filter (fun d => pyIn uf (pyUnquote d.metadata_storage_path)) = []
        then results
        else results.filter (fun d => pyIn uf (pyUnquote d.metadata_storage_path)) := by
  simp only [userFolderFilter, optNonEmpty]
  rw [if_neg huf]

/-- C4 (amended): the engine's Python-side post-filter enforces only the user
folder: it returns a sub-list of its input, keeps every hit whose unquoted
path contains the folder — including hits for documents outside the selected
set — and is skipped entirely when no hit's path contains the folder. -/
theorem C4_user_folder_postfilter (uf : String) (results : List SearchHit)
    (h : SearchHit) (huf : uf ≠ "") :
    (h ∈ userFolderFilter (some uf) results → h ∈ results)
    ∧ (h ∈ results → pyIn uf (pyUnquote h.metadata_storage_path) = true →
        h ∈ userFolderFilter (some uf) results)
    ∧ ((∀ d ∈ results, pyIn uf (pyUnquote d.metadata_storage_path) = false) →
        userFolderFilter (some uf) results = results) := by
  rw [userFolderFilter_some uf huf]
  refine ⟨?_, ?_, ?_⟩
  · intro hm
    by_cases hr : results = []
    · rw [if_pos hr] at hm; exact hm
    · rw [if_neg hr] at hm
      by_cases hf : results.filter (fun d => pyIn uf (pyUnquote d.metadata_storage_path)) = []
      · rw [if_pos hf] at hm; exact hm
      · rw [if_neg hf] at hm
        exact List.mem_of_mem_filter hm
  · intro hm hin
    have hr : results ≠ [] := by
      intro he; rw [he] at hm; simp at hm
    rw [if_neg hr]
    have hmem : h ∈ results.filter (fun d => pyIn uf (pyUnquote d.metadata_storage_path)) :=
      List.mem_filter.mpr ⟨hm, hin⟩
    have hf : results.filter (fun d => pyIn uf (pyUnquote d.metadata_storage_path)) ≠ [] := by
      intro he; rw [he] at hmem; simp at hmem
    rw [if_neg hf]
    exact hmem
  · intro hall
    by_cases hr : results = []
    · rw [if_pos hr]
    · rw [if_neg hr]
      have hf : results.filter (fun d => pyIn uf (pyUnquote d.metadata_storage_path)) = [] := by
        rw [List.filter_eq_nil_iff]
        intro d hd
        rw [hall d hd]
        simp
      rw [if_pos hf]

/-- Witness for the amended C4: the out-of-scope `B.pdf` hit inside the user's
folder survives the post-filter. -/
theorem C4_user_folder_postfilter_witness :
    ("user1" ≠ "")
    ∧ (hitOutOfScope ∈ [hitOutOfScope])
    ∧ (pyIn "user1" (pyUnquote hitOutOfScope.metadata_storage_path) = true)
    ∧ hitOutOfScope ∈ userFolderFilter (some "user1") [hitOutOfScope] :=
  ⟨by decide, by decide, by decide,
    (C4_user_folder_postfilter "user1" [hitOutOfScope] hitOutOfScope (by decide)).2.1
      (by decide) (by decide)⟩

/-- C8: zero surviving context pages together with a non-empty conversation
history produce the explicit "no new documents" placeholder context — not an
empty string and not the error outcome. -/
theorem C8_empty_context_placeholder (scope_filter : Option String)
    (conversation_history : List ChatMessage) (hh : conversation_history ≠ []) :
    finalizeContext scope_filter [] conversation_history =
      .assembled emptyContextPlaceholder
    ∧ emptyContextPlaceholder ≠ ""
    ∧ ∀ m, finalizeContext scope_filter [] conversation_history ≠ .noDocuments m := by
  have h1 : finalizeContext scope_filter [] conversation_history =
      .assembled emptyContextPlaceholder := by
    unfold finalizeContext
    simp [hh]
  exact ⟨h1, by decide, fun m hm => by rw [h1] at hm; exact ChatContextResult.noConfusion hm⟩

/-- Witness for C8 at a concrete one-turn history. -/
theorem C8_empty_context_placeholder_witness :
    ([ChatMessage.mk "user" "hello"] ≠ ([] : List ChatMessage))
    ∧ finalizeContext none [] [ChatMessage.mk "user" "hello"] =
        .assembled emptyContextPlaceholder :=
  ⟨by decide, (C8_empty_context_placeholder none [ChatMessage.mk "user" "hello"]
      (by decide)).1⟩

/-! ## C9: Query Normalizer skip rules and fallback -/

/-- Counterexample to C9's fallback clause: when the external paraphrase call
fails on `why "fail"?` (no page reference, no structural keyword, no
rule-based trigger), `_rewrite_query` returns the raw question verbatim —
which differs from the sanitized-exact form the claim promises. -/
theorem C9_fallback_counterexample :
    rewriteQueryV2 (fun _ => none) "why \"fail\"?" = some "why \"fail\"?"
    ∧ sanitizeQuery "why \"fail\"?" = "why fail"
    ∧ ("why \"fail\"?" : String) ≠ "why fail" := by
  refine ⟨by decide, by decide, by decide⟩

/-- C9 (amended): a question with an explicit page reference or a structural
keyword skips expansion and is used verbatim; and when the LLM paraphrase call
is reached and fails, the normalizer falls back to the raw question verbatim
(not its sanitized-exact form), raising no exception. -/
theorem C9_skip_and_raw_fallback (llm : String → Option String) (msg : String) :
    (pageSpecificPattern msg = true → rewriteQueryV2 llm msg = some msg)
    ∧ (structuralQuery msg = true → rewriteQueryV2 llm msg = some msg)
    ∧ (pageSpecificPattern msg = false → structuralQuery msg = false →
        loadListTrigger msg = false → pidListTrigger msg = false →
        llm msg = none → rewriteQueryV2 llm msg = some msg) := by
  refine ⟨?_, ?_, ?_⟩
  · intro h
    simp [rewriteQueryV2, h]
  · intro h
    by_cases hp : pageSpecificPattern msg <;> simp [rewriteQueryV2, hp, h]
  · intro h1 h2 h3 h4 h5
    simp [rewriteQueryV2, h1, h2, h3, h4, h5]

/-- Witness for the amended C9 at `why "fail"?` with a failing LLM call. -/
theorem C9_skip_and_raw_fallback_witness :
    (pageSpecificPattern "why \"fail\"?" = false)
    ∧ (structuralQuery "why \"fail\"?" = false)
    ∧ (loadListTrigger "why \"fail\"?" = false)
    ∧ (pidListTrigger "why \"fail\"?" = false)
    ∧ rewriteQueryV2 (fun _ => none) "why \"fail\"?" = some "why \"fail\"?" :=
  ⟨by decide, by decide, by decide, by decide,
    (C9_skip_and_raw_fallback (fun _ => none) "why \"fail\"?").2.2
      (by decide) (by decide) (by decide) (by decide) rfl⟩

/-! ## C10: Linkifier locality and (non-)idempotence -/

/-- If the replacement callback returns every matched span unchanged, the
substitution is the identity (for any fuel). -/
theorem subCitations_id (repl : List Char → List Char → List Char → List Char)
    (hrepl : ∀ r f p, repl r f p = r) :
    ∀ (fuel : Nat) (cs : List Char), subCitations repl fuel cs = cs := by
  intro fuel
  induction fuel with
  | zero =>
    intro cs
    cases cs <;> rfl
  | succ n ih =>
    intro cs
    cases cs with
    | nil => rfl
    | cons c cs' =>
      by_cases hc : c = '('
      · subst hc
        cases hm : matchCitAfterParen cs' with
        | none => simp [subCitations, hm, ih]
        | some kfp =>
          obtain ⟨k, f, p⟩ := kfp
          simp [subCitations, hm, hrepl, ih, List.take_append_drop]
      · simp [subCitations, hc, ih]

def citA : Citation := ⟨"drawings/A.pdf", "", "", "", 1⟩

def sasDemo : String → Option String := fun p => some ("https://sas/" ++ p)

/-- Counterexample to C10's idempotence clause: the raw-citation pattern
re-matches the citation text inside an already-produced link, so a second
application of the linkifier wraps the citation again. -/
theorem C10_idempotence_counterexample :
    linkifyCitations sasDemo
        (linkifyCitations sasDemo "see (A.pdf: p.1) ok" [citA]) [citA]
      ≠ linkifyCitations sasDemo "see (A.pdf: p.1) ok" [citA] := by decide

/-- C10 (amended): the linkifier only rewrites citation-shaped substrings that
resolve against the citation list — an unresolvable citation is left
unchanged (never given a fabricated link), and a failing SAS-URL generation
also leaves the text unchanged; all other text is preserved byte-for-byte
(the identity-replacement substitution is the identity).  It is NOT
idempotent (see the counterexample). -/
theorem C10_linkifier_locality :
    (∀ (repl : List Char → List Char → List Char → List Char) (fuel : Nat)
        (cs : List Char), (∀ r f p, repl r f p = r) → subCitations repl fuel cs = cs)
    ∧ (∀ (sas : String → Option String) (text : String) (citations : List Citation),
        (∀ f p, findCitation citations f p = none) →
        linkifyCitations sas text citations = text)
    ∧ (∀ (text : String) (citations : List Citation),
        linkifyCitations (fun _ => none) text citations = text) := by
  refine ⟨fun repl fuel cs hrepl => subCitations_id repl hrepl fuel cs, ?_, ?_⟩
  · intro sas text citations hfind
    unfold linkifyCitations
    by_cases hguard : text = "" ∨ citations = []
    · rw [if_pos hguard]
    · rw [if_neg hguard]
      have hid : ∀ r f p, replaceCitMatch sas citations r f p = r := by
        intro r f p
        unfold replaceCitMatch
        rw [hfind]
      rw [subCitations_id _ hid]
      cases text
      rfl
  · intro text citations
    unfold linkifyCitations
    by_cases hguard : text = "" ∨ citations = []
    · rw [if_pos hguard]
    · rw [if_neg hguard]
      have hid : ∀ r f p, replaceCitMatch (fun _ => none) citations r f p = r := by
        intro r f p
        unfold replaceCitMatch
        cases findCitation citations (String.mk f) (String.mk p) with
        | none => rfl
        | some cit => by_cases hf : cit.filepath ≠ "" <;> simp [hf]
      rw [subCitations_id _ hid]
      cases text
      rfl

/-- Witness for the amended C10: with an empty citation list nothing resolves
and the text is returned unchanged. -/
theorem C10_linkifier_locality_witness :
    (∀ f p, findCitation [] f p = none)
    ∧ linkifyCitations sasDemo "see (A.pdf: p.1) ok" [] = "see (A.pdf: p.1) ok" :=
  ⟨fun _ _ => rfl,
    C10_linkifier_locality.2.1 sasDemo "see (A.pdf: p.1) ok" [] (fun _ _ => rfl)⟩

/-! ## C1: forced inclusion -/

/-- Counterexample to C1: with an empty (or failing) backend the final merged
hit list of the forced-inclusion pipeline is empty — no hit prefix-matching the
selected document `A.pdf` exists, for a query with no lexical overlap.  (In
chat_manager_v2.py the forced-inclusion step was removed outright.) -/
theorem C1_forced_inclusion_counterexample :
    V1.orchestrator (fun _ => []) (fun _ => none) (fun _ _ => []) id
      "completely unrelated query" "any" false none ["A.pdf"] none = []
    ∧ ¬ ∃ h ∈ V1.orchestrator (fun _ => []) (fun _ => none) (fun _ _ => []) id
        "completely unrelated query" "any" false none ["A.pdf"] none,
      pyStartsWith h.metadata_storage_name "A.pdf" = true := by
  refine ⟨by decide, by decide⟩

theorem mem_forceInclusionStep_acc (backend : SearchRequest → List SearchHit)
    (ff : Option String) (q : String) (acc : List SearchHit) (t : String)
    {h : SearchHit} (hm : h ∈ acc) : h ∈ V1.forceInclusionStep backend ff q acc t := by
  unfold V1.forceInclusionStep
  have h1 : h ∈ (if backend (V1.forcedIndexRequest ff t) = [] then acc
      else acc ++ backend (V1.forcedIndexRequest ff t)) := by
    by_cases hi : backend (V1.forcedIndexRequest ff t) = []
    · rw [if_pos hi]; exact hm
    · rw [if_neg hi]; exact List.mem_append_left _ hm
  by_cases hl : V1.listTriggerKeywords.any (fun kw => pyIn kw (pyUpper q))
  · rw [if_pos hl]
    by_cases hr : backend (V1.forcedListRequest ff t) = []
    · rw [if_pos hr]; exact h1
    · rw [if_neg hr]; exact List.mem_append_left _ h1
  · rw [if_neg hl]; exact h1

theorem mem_forceInclusionStep_idx (backend : SearchRequest → List SearchHit)
    (ff : Option String) (q : String) (acc : List SearchHit) (t : String)
    {h : SearchHit} (hm : h ∈ backend (V1.forcedIndexRequest ff t)) :
    h ∈ V1.forceInclusionStep backend ff q acc t := by
  unfold V1.forceInclusionStep
  have hne : backend (V1.forcedIndexRequest ff t) ≠ [] := by
    intro he; rw [he] at hm; simp at hm
  have h1 : h ∈ (if backend (V1.forcedIndexRequest ff t) = [] then acc
      else acc ++ backend (V1.forcedIndexRequest ff t)) := by
    rw [if_neg hne]; exact List.mem_append_right _ hm
  by_cases hl : V1.listTriggerKeywords.any (fun kw => pyIn kw (pyUpper q))
  · rw [if_pos hl]
    by_cases hr : backend (V1.forcedListRequest ff t) = []
    · rw [if_pos hr]; exact h1
    · rw [if_neg hr]; exact List.mem_append_left _ h1
  · rw [if_neg hl]; exact h1

theorem mem_foldl_forceInclusionStep (backend : SearchRequest → List SearchHit)
    (ff : Option String) (q : String) (l : List String) :
    ∀ (acc : List SearchHit) {h : SearchHit},
      (h ∈ acc ∨ ∃ t ∈ l, h ∈ backend (V1.forcedIndexRequest ff t)) →
      h ∈ l.foldl (V1.forceInclusionStep backend ff q) acc := by
  induction l with
  | nil =>
    intro acc h hm
    rcases hm with hm | ⟨t, ht, _⟩
    · exact hm
    · simp at ht
  | cons a l' ih =>
    intro acc h hm
    show h ∈ l'.foldl (V1.forceInclusionStep backend ff q)
      (V1.forceInclusionStep backend ff q acc a)
    rcases hm with hm | ⟨t, ht, hmt⟩
    · exact ih _ (Or.inl (mem_forceInclusionStep_acc backend ff q acc a hm))
    · rcases List.mem_cons.mp ht with rfl | ht'
      · exact ih _ (Or.inl (mem_forceInclusionStep_idx backend ff q acc t hmt))
      · exact ih _ (Or.inr ⟨t, ht', hmt⟩)

/-- C1 (amended): for every document in the must-include list, IF the
document-scoped forced-inclusion wildcard fetch returns at least one hit whose
normalized name starts with the normalized document name, THEN the final
merged hit list contains such a hit.  (Unconditionally the guarantee fails —
see the counterexample — and chat_manager_v2.py removed the step entirely.) -/
theorem C1_forced_inclusion_conditional
    (backend : SearchRequest → List SearchHit) (llm : String → Option String)
    (directFetch : String → Option String → List SearchHit) (nfc : String → String)
    (user_message search_mode : String) (use_semantic_ranker : Bool)
    (filter_expr : Option String) (available_files : List String)
    (user_folder : Option String) (target : String)
    (htarget : target ∈ available_files)
    (hbackend : ∃ h ∈ backend (V1.forcedIndexRequest
        (finalFilter nfc user_message filter_expr available_files) (nfc target)),
      pyStartsWith (nfc h.metadata_storage_name) (nfc target) = true) :
    ∃ h ∈ V1.orchestrator backend llm directFetch nfc user_message search_mode
        use_semantic_ranker filter_expr available_files user_folder,
      pyStartsWith (nfc h.metadata_storage_name) (nfc target) = true := by
  rcases hbackend with ⟨h, hmem, hpre⟩
  refine ⟨h, ?_, hpre⟩
  unfold V1.orchestrator V1.forceInclusion
  have hfe : available_files ≠ [] := by
    intro he; rw [he] at htarget; simp at htarget
  rw [if_neg hfe]
  apply mem_foldl_forceInclusionStep
  refine Or.inr ⟨nfc target, List.mem_map_of_mem nfc htarget, ?_⟩
  simpa [finalFilter] using hmem

/-- Witness for the amended C1 at a backend that honours the scoped fetch. -/
theorem C1_forced_inclusion_conditional_witness :
    ("A.pdf" ∈ ["A.pdf"])
    ∧ (∃ h ∈ (fun _ : SearchRequest => [SearchHit.mk "A.pdf (p.1)" "" "c" ""])
        (V1.forcedIndexRequest (finalFilter id "q" none ["A.pdf"]) (id "A.pdf")),
      pyStartsWith (id h.metadata_storage_name) (id "A.pdf") = true)
    ∧ ∃ h ∈ V1.orchestrator (fun _ => [SearchHit.mk "A.pdf (p.1)" "" "c" ""])
        (fun _ => none) (fun _ _ => []) id "q" "any" false none ["A.pdf"] none,
      pyStartsWith (id h.metadata_storage_name) (id "A.pdf") = true :=
  ⟨by decide, by decide,
    C1_forced_inclusion_conditional (fun _ => [SearchHit.mk "A.pdf (p.1)" "" "c" ""])
      (fun _ => none) (fun _ _ => []) id "q" "any" false none ["A.pdf"] none "A.pdf"
      (by decide) (by decide)⟩

end AISearch
